import Mathlib

/-!
Shallow embedding of the animated-GIF compositing, playback and re-encode
engine of GlitchMixer (the useAnimatedGif hook): frame compositing from
decoded patches (loadGif), the playback scheduler (play / pause / reset and
the animate tick), frame rendering (renderToCanvas) and the export pipeline
(generateGif).  Pixels are RGBA quadruples of naturals (each component is a
byte in the source; byte range plays no role in the claims), a canvas is a
row-major list of pixels.
-/

namespace GlitchMixer

/-- One RGBA pixel (straight alpha, as in ImageData). -/
structure RGBA where
  r : Nat
  g : Nat
  b : Nat
  a : Nat
deriving DecidableEq, Repr

/-- The fully transparent pixel, the content of a freshly cleared canvas. -/
def clearPixel : RGBA := ⟨0, 0, 0, 0⟩

/-- One decoded GIF frame patch as delivered by gifuct-js decompressFrames:
a sub-rectangle of indexed pixels (dims = width, height, left, top), an
optional transparent palette index, a colour table, a disposal code and a
delay in milliseconds. -/
structure RawPatch where
  width : Nat
  height : Nat
  left : Nat
  top : Nat
  pixels : List Nat
  transparentIndex : Option Nat
  colorTable : List (Nat × Nat × Nat)
  disposalType : Nat
  delay : Nat
deriving DecidableEq, Repr

/-- One fully composited frame held by the hook state: a full-canvas pixel
buffer plus its display delay. -/
structure Frame where
  imageData : List RGBA
  delay : Nat
deriving DecidableEq, Repr

/-- The AnimatedGifState of the hook (the temp-canvas and animation refs are
modelled separately where a claim needs them). -/
structure GifState where
  frames : List Frame
  width : Nat
  height : Nat
  currentFrameIndex : Nat
  isPlaying : Bool
  originalDelays : List Nat
  isLoading : Bool
  error : Option String
deriving DecidableEq, Repr

/-- ctx.putImageData(img, 0, 0) on a w by h canvas: pixels inside the
image's rectangle are replaced outright (no blending), pixels outside it
are kept. -/
def putImageDataRegion (w h : Nat) (dst : List RGBA) (img : List RGBA)
    (imgW imgH : Nat) : List RGBA :=
  (List.range (w * h)).map fun j =>
    let x := j % w
    let y := j / w
    if x < imgW ∧ y < imgH then img.getD (y * imgW + x) clearPixel
    else dst.getD j clearPixel

/-- Source-over blending as used by ctx.drawImage, restricted to the alpha
values this pipeline produces: every source pixel has alpha 0 (drawn pixels
keep the destination) or alpha 255 (drawn pixels replace the destination). -/
def blendOver (s d : RGBA) : RGBA :=
  if s.a = 0 then d else s

/-- ctx.drawImage(src, left, top) on a w by h canvas: the whole srcW by srcH
source is composited source-over at offset (left, top), clipped to the
destination. -/
def drawImage (w h : Nat) (dst : List RGBA) (src : List RGBA)
    (srcW srcH left top : Nat) : List RGBA :=
  (List.range (w * h)).map fun j =>
    let x := j % w
    let y := j / w
    if left ≤ x ∧ x < left + srcW ∧ top ≤ y ∧ y < top + srcH then
      blendOver (src.getD ((y - top) * srcW + (x - left)) clearPixel)
        (dst.getD j clearPixel)
    else dst.getD j clearPixel

/-- Expansion of one indexed patch pixel into RGBA (loadGif's inner loop):
a pixel whose index equals the patch's transparent index is written with
alpha 0 (its RGB bytes stay at the zero-initialised value), any other pixel
takes colorTable[index] falling back to [0,0,0], with alpha 255. -/
def expandPixel (p : RawPatch) (idx : Nat) : RGBA :=
  if p.transparentIndex = some idx then clearPixel
  else
    let c := p.colorTable.getD idx (0, 0, 0)
    ⟨c.1, c.2.1, c.2.2, 255⟩

/-- The patch ImageData built by loadGif: a width*height buffer whose j-th
pixel is the expansion of pixels[j]; positions past the end of the pixel
array keep the zero-initialised (fully transparent) value. -/
def expandPatch (p : RawPatch) : List RGBA :=
  (List.range (p.width * p.height)).map fun j =>
    if j < p.pixels.length then expandPixel p (p.pixels.getD j 0)
    else clearPixel

/-- The disposal handling at the top of loadGif's frame loop.  Before the
first patch (prevDisposal = none) the canvas is cleared.  For a later patch:
disposal 2 of the previous patch clears the whole canvas; otherwise, when a
previous snapshot exists and the disposal is not 3, the snapshot (taken
after the previous patch was drawn) is put back; for disposal 3 the canvas
is left as it is. -/
def disposalStep (w h : Nat) (canvas : List RGBA) (prevDisposal : Option Nat)
    (previousImageData : Option (List RGBA)) : List RGBA :=
  match prevDisposal with
  | none => List.replicate (w * h) clearPixel
  | some d =>
    if d = 2 then List.replicate (w * h) clearPixel
    else
      match previousImageData with
      | some prevImg => if d ≠ 3 then prevImg else canvas
      | none => canvas

/-- Drawing one patch: its expanded ImageData is put at (0,0) of the shared
patch canvas (whose remaining area keeps content from earlier iterations),
and the whole patch canvas is then drawn source-over onto the main canvas at
the patch's offset, exactly as loadGif does. -/
def compositeDraw (w h : Nat) (canvas patchCanvas : List RGBA)
    (p : RawPatch) : List RGBA × List RGBA :=
  let patchCv := putImageDataRegion w h patchCanvas (expandPatch p) p.width p.height
  (drawImage w h canvas patchCv w h p.left p.top, patchCv)

/-- The mutable locals of loadGif's frame loop. -/
structure CompState where
  canvas : List RGBA
  patchCanvas : List RGBA
  previousImageData : Option (List RGBA)
  framesAcc : List Frame
  delaysAcc : List Nat
deriving DecidableEq, Repr

/-- One iteration of loadGif's frame loop: apply the previous patch's
disposal, expand and draw the patch, snapshot the canvas, and record the
frame with delay (patch.delay or 100 when the patch reports 0). -/
def compositeStep (w h : Nat) (prevDisposal : Option Nat) (st : CompState)
    (p : RawPatch) : CompState :=
  let canvas0 := disposalStep w h st.canvas prevDisposal st.previousImageData
  let drawn := compositeDraw w h canvas0 st.patchCanvas p
  let d := if p.delay = 0 then 100 else p.delay
  { canvas := drawn.1
    patchCanvas := drawn.2
    previousImageData := some drawn.1
    framesAcc := st.framesAcc ++ [⟨drawn.1, d⟩]
    delaysAcc := st.delaysAcc ++ [d] }

/-- loadGif's frame loop over the whole patch list, threading the previous
patch's disposal code. -/
def compositeAux (w h : Nat) : CompState → Option Nat → List RawPatch → CompState
  | st, _, [] => st
  | st, prevD, p :: rest =>
      compositeAux w h (compositeStep w h prevD st p) (some p.disposalType) rest

/-- The frame store produced by a successful load. -/
structure FrameStore where
  frames : List Frame
  width : Nat
  height : Nat
  originalDelays : List Nat
deriving DecidableEq, Repr

/-- The compositing core of loadGif: fails (none) on an empty patch list,
otherwise takes the canvas size from the first patch's dims and folds the
frame loop from freshly cleared canvases. -/
def composeGif (patches : List RawPatch) : Option FrameStore :=
  match patches with
  | [] => none
  | p0 :: _ =>
    let w := p0.width
    let h := p0.height
    let st0 : CompState :=
      { canvas := List.replicate (w * h) clearPixel
        patchCanvas := List.replicate (w * h) clearPixel
        previousImageData := none
        framesAcc := []
        delaysAcc := [] }
    let fin := compositeAux w h st0 none patches
    some { frames := fin.framesAcc, width := w, height := h,
           originalDelays := fin.delaysAcc }

/-- Convenience accessor used by concrete compositing computations: the pixel
buffer of frame i of a composited patch list (empty when the load fails or
the index is out of range). -/
def frameData (patches : List RawPatch) (i : Nat) : List RGBA :=
  match composeGif patches with
  | some st => (st.frames.getD i ⟨[], 0⟩).imageData
  | none => []

/-- The possible outcomes of the fetch/read/parse stages of loadGif: the
three failure throws caught by its outer catch, or successfully decoded
patches (an empty patch list is itself a parse failure inside loadGif). -/
inductive LoadInput where
  | fetchFail
  | readFail
  | parseFail
  | bytes (patches : List RawPatch)
deriving DecidableEq, Repr

/-- loadGif as a state transformer: it first installs the in-progress state
(isLoading, error cleared, frames cleared, playback stopped and rewound),
then on any failure only flips isLoading off and records the error message,
and on success replaces the whole state with the processed frames.  The
returned Bool is loadGif's return value. -/
def loadGif (prev : GifState) (inp : LoadInput) : GifState × Bool :=
  let mid : GifState :=
    { prev with isLoading := true, error := none, frames := [],
                isPlaying := false, currentFrameIndex := 0 }
  match inp with
  | .fetchFail =>
      ({ mid with isLoading := false, error := some "Failed to fetch GIF" }, false)
  | .readFail =>
      ({ mid with isLoading := false, error := some "Failed to read GIF data" }, false)
  | .parseFail =>
      ({ mid with isLoading := false,
                  error := some "Failed to parse GIF format. Is this a valid GIF file?" }, false)
  | .bytes patches =>
      match composeGif patches with
      | none =>
          ({ mid with isLoading := false,
                      error := some "Failed to parse GIF format. Is this a valid GIF file?" }, false)
      | some store =>
          ({ frames := store.frames, width := store.width, height := store.height,
             currentFrameIndex := 0, isPlaying := false,
             originalDelays := store.originalDelays, isLoading := false,
             error := none }, true)

/-- The playback scheduler's observable state: the per-frame delays of the
loaded frames, the frame cursor, the isPlaying flag, the carry-over
accumulator (frameTimeOffsetRef in the source) and whether a scheduled
animation callback is in flight (animationRef.current not null). -/
structure SchedState where
  delays : List Nat
  currentFrameIndex : Nat
  isPlaying : Bool
  carryOverMillis : Nat
  animActive : Bool
deriving DecidableEq, Repr

/-- One invocation of the animate callback with the elapsed milliseconds
since the previous tick.  It returns immediately when no animation handle is
active (the guard at the top of animate); otherwise it adds the elapsed time
to the carry-over and, with a single conditional, advances at most one frame
when the carry-over reaches the current frame's delay. -/
def animate (s : SchedState) (elapsed : Nat) : SchedState :=
  if s.animActive = false then s
  else
    let carry := s.carryOverMillis + elapsed
    let d := s.delays.getD s.currentFrameIndex 0
    if d ≤ carry then
      { s with carryOverMillis := carry - d,
               currentFrameIndex := (s.currentFrameIndex + 1) % s.delays.length }
    else
      { s with carryOverMillis := carry }

/-- play(): no-op when no frames are loaded or already playing; otherwise
cancels any pending callback, marks playing, zeroes the carry-over and
schedules the animation callback. -/
def play (s : SchedState) : SchedState :=
  if s.delays.length = 0 ∨ s.isPlaying = true then s
  else { s with isPlaying := true, carryOverMillis := 0, animActive := true }

/-- pause(): cancels the pending animation callback and clears isPlaying;
the frame cursor and the carry-over are untouched. -/
def pause (s : SchedState) : SchedState :=
  { s with animActive := false, isPlaying := false }

/-- reset(): cancels the pending animation callback, rewinds the frame
cursor to 0 and clears isPlaying; the carry-over accumulator is not
touched by reset in the source. -/
def reset (s : SchedState) : SchedState :=
  { s with animActive := false, currentFrameIndex := 0, isPlaying := false }

/-- A caller-supplied canvas surface. -/
structure CanvasSurface where
  width : Nat
  height : Nat
  data : List RGBA
deriving DecidableEq, Repr

/-- renderToCanvas: returns false at once, leaving the target untouched,
when the frame store is empty or the current frame index is out of range;
otherwise resizes the target to the store's dimensions if they differ
(resizing a canvas clears it), puts the current frame's pixels, applies the
optional effects callback and returns true. -/
def renderToCanvas (s : GifState) (canvas : CanvasSurface)
    (applyEffects : Option (CanvasSurface → CanvasSurface)) :
    Bool × CanvasSurface :=
  if s.frames.length = 0 ∨ s.frames.length ≤ s.currentFrameIndex then
    (false, canvas)
  else
    let c1 :=
      if canvas.width ≠ s.width ∨ canvas.height ≠ s.height then
        { canvas with width := s.width, height := s.height,
                      data := List.replicate (s.width * s.height) clearPixel }
      else canvas
    let frame := s.frames.getD s.currentFrameIndex ⟨[], 0⟩
    let c2 : CanvasSurface :=
      { c1 with data := putImageDataRegion c1.width c1.height c1.data
                          frame.imageData s.width s.height }
    let c3 :=
      match applyEffects with
      | some f => f c2
      | none => c2
    (true, c3)

/-- The processNextFrame loop of generateGif, from frame counter k on: each
step draws frame k's pixels onto the scratch canvas (a full replace), applies
the effects callback, and hands the result to the encoder together with
originalDelays[k]. -/
def processNextFrame (frames : List Frame) (delays : List Nat)
    (applyEffects : List RGBA → List RGBA) (k : Nat) : List (List RGBA × Nat) :=
  if h : k < frames.length then
    (applyEffects (frames.get ⟨k, h⟩).imageData, delays.getD k 0) ::
      processNextFrame frames delays applyEffects (k + 1)
  else []
termination_by frames.length - k

/-- generateGif: rejects when no frames are loaded, otherwise runs the
sequential per-frame loop from frame 0 and returns the list of
(pixel buffer, delay) pairs handed to the encoder, in the order they were
handed over. -/
def generateGif (frames : List Frame) (delays : List Nat)
    (applyEffects : List RGBA → List RGBA) :
    Except String (List (List RGBA × Nat)) :=
  if frames.length = 0 then .error "No frames available"
  else .ok (processNextFrame frames delays applyEffects 0)

/-! Helper lemmas about the canvas primitives. -/

theorem getD_range_map {α : Type} (f : Nat → α) (n j : Nat) (d : α)
    (h : j < n) : ((List.range n).map f).getD j d = f j := by
  have hlen : j < ((List.range n).map f).length := by simpa using h
  rw [List.getD_eq_getElem _ _ hlen, List.getElem_map, List.getElem_range]

theorem rowmajor_lt {a b w h : Nat} (ha : a < w) (hb : b < h) :
    b * w + a < w * h := by
  calc b * w + a < b * w + w := by omega
    _ = (b + 1) * w := by ring
    _ ≤ h * w := Nat.mul_le_mul_right w hb
    _ = w * h := Nat.mul_comm h w

theorem rowmajor_mod {a b w : Nat} (ha : a < w) : (b * w + a) % w = a := by
  rw [Nat.mul_comm b w, Nat.mul_add_mod]
  exact Nat.mod_eq_of_lt ha

theorem rowmajor_div {a b w : Nat} (ha : a < w) : (b * w + a) / w = b := by
  have hw : 0 < w := by omega
  rw [Nat.mul_comm b w, Nat.mul_add_div hw]
  simp [Nat.div_eq_of_lt ha]

theorem drawImage_getD (w h : Nat) (dst src : List RGBA)
    (srcW srcH left top x y : Nat) (hx : x < w) (hy : y < h) :
    (drawImage w h dst src srcW srcH left top).getD (y * w + x) clearPixel =
      if left ≤ x ∧ x < left + srcW ∧ top ≤ y ∧ y < top + srcH then
        blendOver (src.getD ((y - top) * srcW + (x - left)) clearPixel)
          (dst.getD (y * w + x) clearPixel)
      else dst.getD (y * w + x) clearPixel := by
  rw [drawImage, getD_range_map _ _ _ _ (rowmajor_lt hx hy)]
  simp only [rowmajor_mod hx, rowmajor_div hx]

theorem putImageDataRegion_getD (w h : Nat) (dst img : List RGBA)
    (imgW imgH x y : Nat) (hx : x < w) (hy : y < h) :
    (putImageDataRegion w h dst img imgW imgH).getD (y * w + x) clearPixel =
      if x < imgW ∧ y < imgH then img.getD (y * imgW + x) clearPixel
      else dst.getD (y * w + x) clearPixel := by
  rw [putImageDataRegion, getD_range_map _ _ _ _ (rowmajor_lt hx hy)]
  simp only [rowmajor_mod hx, rowmajor_div hx]

theorem expandPatch_getD (p : RawPatch) (x y : Nat)
    (hx : x < p.width) (hy : y < p.height) :
    (expandPatch p).getD (y * p.width + x) clearPixel =
      if y * p.width + x < p.pixels.length then
        expandPixel p (p.pixels.getD (y * p.width + x) 0)
      else clearPixel := by
  rw [expandPatch, getD_range_map _ _ _ _ (rowmajor_lt hx hy)]

/-- The pixel of the composited canvas at a patch-covered position: the
expanded patch pixel blended source-over with the previous canvas content. -/
theorem compositeDraw_pixel (w h : Nat) (canvas patchCanvas : List RGBA)
    (p : RawPatch) (x y : Nat) (hx : x < p.width) (hy : y < p.height)
    (hxw : p.left + x < w) (hyh : p.top + y < h) :
    (compositeDraw w h canvas patchCanvas p).1.getD
        ((p.top + y) * w + (p.left + x)) clearPixel =
      blendOver ((expandPatch p).getD (y * p.width + x) clearPixel)
        (canvas.getD ((p.top + y) * w + (p.left + x)) clearPixel) := by
  have hxlt : x < w := by omega
  have hylt : y < h := by omega
  simp only [compositeDraw]
  rw [drawImage_getD w h canvas _ w h p.left p.top (p.left + x) (p.top + y) hxw hyh]
  rw [if_pos (by omega)]
  simp only [Nat.add_sub_cancel_left]
  rw [putImageDataRegion_getD w h patchCanvas (expandPatch p) p.width p.height x y
    hxlt hylt]
  rw [if_pos ⟨hx, hy⟩]

/-- A tick on a state with no in-flight animation callback does nothing. -/
theorem animate_inactive (s : SchedState) (e : Nat) (h : s.animActive = false) :
    animate s e = s := by
  rw [animate, if_pos h]

theorem foldl_animate_inactive (es : List Nat) :
    ∀ t : SchedState, t.animActive = false → es.foldl animate t = t := by
  induction es with
  | nil => intro t _; rfl
  | cons e es ih =>
    intro t h
    rw [List.foldl_cons, animate_inactive t e h]
    exact ih t h

/-! Shared concrete states and patch lists used in concrete evaluations. -/

/-- A playing scheduler at frame 0 of a store with delays [100, 200, 50]. -/
def demoSched : SchedState :=
  { delays := [100, 200, 50], currentFrameIndex := 0, isPlaying := true,
    carryOverMillis := 0, animActive := true }

/-- A scheduler state carrying a non-zero time accumulator. -/
def demoSchedCarry : SchedState :=
  { delays := [100], currentFrameIndex := 2, isPlaying := true,
    carryOverMillis := 25, animActive := true }

/-- C1, counterexample.  The claim says one tick fast-forwards through every
elapsed frame (a while loop), so a single tick of 275 ms from frame 0 over
delays [100, 200, 50] should land on frame 2 with carry-over 25.  The
animate callback uses a single conditional, so it lands on frame 1 with
carry-over 175. -/
theorem animate_fast_forward_counterexample :
    ¬ ((animate demoSched 275).currentFrameIndex = 2 ∧
       (animate demoSched 275).carryOverMillis = 25) := by
  decide

/-- C1, amended.  A tick of the animate callback adds the elapsed time to
the carry-over accumulator and then, with one conditional (not a while
loop), subtracts the current frame's delay and advances the frame cursor by
one modulo the frame count when the accumulator reaches that delay;
consequently a single tick of 275 ms from frame 0 over delays [100, 200, 50]
lands on frame 1 with carry-over 175. -/
theorem animate_single_step :
    (∀ (s : SchedState) (e : Nat), s.animActive = true →
      animate s e =
        if s.delays.getD s.currentFrameIndex 0 ≤ s.carryOverMillis + e then
          { s with
              carryOverMillis :=
                s.carryOverMillis + e - s.delays.getD s.currentFrameIndex 0,
              currentFrameIndex := (s.currentFrameIndex + 1) % s.delays.length }
        else { s with carryOverMillis := s.carryOverMillis + e }) ∧
    (animate demoSched 275).currentFrameIndex = 1 ∧
    (animate demoSched 275).carryOverMillis = 175 := by
  refine ⟨fun s e hs => ?_, by decide, by decide⟩
  rw [animate, if_neg (by simp [hs])]

/-- C1, witness: the single-step characterisation applied to the concrete
275 ms tick of the claim. -/
theorem animate_single_step_witness :
    animate demoSched 275 =
      { delays := [100, 200, 50], currentFrameIndex := 1, isPlaying := true,
        carryOverMillis := 175, animActive := true } := by
  rw [animate_single_step.1 demoSched 275 rfl]
  decide

/-- C5, counterexample.  The claim says reset() leaves exactly
(currentFrameIndex = 0, isPlaying = false, carryOverMillis = 0); on a state
whose accumulator holds 25 ms, reset() rewinds the cursor and stops playback
but the accumulator keeps its 25 ms (the source's reset never touches
frameTimeOffsetRef). -/
theorem reset_carryover_counterexample :
    ¬ ((reset demoSchedCarry).currentFrameIndex = 0 ∧
       (reset demoSchedCarry).isPlaying = false ∧
       (reset demoSchedCarry).carryOverMillis = 0) := by
  decide

/-- C5, amended.  For every prior state, reset() sets currentFrameIndex to
0, clears isPlaying and cancels the in-flight scheduled tick, but leaves the
carry-over accumulator unchanged (it is zeroed again only by the next
play()). -/
theorem reset_semantics (s : SchedState) :
    (reset s).currentFrameIndex = 0 ∧ (reset s).isPlaying = false ∧
    (reset s).animActive = false ∧
    (reset s).carryOverMillis = s.carryOverMillis ∧
    (reset s).delays = s.delays := by
  exact ⟨rfl, rfl, rfl, rfl, rfl⟩

/-- C9, confirmed.  pause() cancels the queued animation callback before
clearing isPlaying, so any sequence of later simulated ticks is a no-op: the
whole scheduler state, and in particular currentFrameIndex, stays exactly as
pause() left it (with the frame cursor untouched by pause itself) until a
play() re-arms the callback. -/
theorem pause_freezes_frame_index (s : SchedState) (es : List Nat) :
    es.foldl animate (pause s) = pause s ∧
    (pause s).currentFrameIndex = s.currentFrameIndex ∧
    (pause s).animActive = false := by
  exact ⟨foldl_animate_inactive es (pause s) rfl, rfl, rfl⟩

/-- A three-frame loaded store whose playback cursor is far out of range. -/
def demoStateOutOfRange : GifState :=
  { frames := [⟨[clearPixel], 100⟩, ⟨[clearPixel], 100⟩, ⟨[clearPixel], 100⟩],
    width := 1, height := 1, currentFrameIndex := 999, isPlaying := false,
    originalDelays := [100, 100, 100], isLoading := false, error := none }

/-- C8, confirmed.  renderToCanvas returns false, and hands back the target
surface untouched (same dimensions, same pixels), whenever the frame store
is empty or the frame index is out of range. -/
theorem renderToCanvas_out_of_range (s : GifState) (canvas : CanvasSurface)
    (eff : Option (CanvasSurface → CanvasSurface))
    (h : s.frames.length = 0 ∨ s.frames.length ≤ s.currentFrameIndex) :
    renderToCanvas s canvas eff = (false, canvas) := by
  rw [renderToCanvas, if_pos h]

/-- C8, witness: rendering frame index 999 of a 3-frame store returns false
and leaves a 5 by 7 target with its dimensions (and content) unchanged. -/
theorem renderToCanvas_out_of_range_witness :
    renderToCanvas demoStateOutOfRange ⟨5, 7, []⟩ none = (false, ⟨5, 7, []⟩) :=
  renderToCanvas_out_of_range demoStateOutOfRange ⟨5, 7, []⟩ none
    (Or.inr (by decide))

/-- C10, confirmed.  Expanding a patch pixel whose colour index is not the
transparent index and has no entry in the patch's colour table yields the
fully opaque black pixel (the 'or [0,0,0]' fallback); expansion is total and
never fails. -/
theorem expand_bad_color_index (p : RawPatch) (j : Nat)
    (hjp : j < p.pixels.length) (hjd : j < p.width * p.height)
    (ht : p.transparentIndex ≠ some (p.pixels.getD j 0))
    (hc : p.colorTable.length ≤ p.pixels.getD j 0) :
    (expandPatch p).getD j clearPixel = ⟨0, 0, 0, 255⟩ := by
  have h1 : (expandPatch p).getD j clearPixel =
      if j < p.pixels.length then expandPixel p (p.pixels.getD j 0)
      else clearPixel := by
    rw [expandPatch]
    exact getD_range_map _ _ _ _ hjd
  rw [h1, if_pos hjp, expandPixel, if_neg ht, List.getD_eq_default _ _ hc]

/-- C10, witness: a 1-pixel patch with an empty colour table and colour
index 5 expands to opaque black. -/
theorem expand_bad_color_index_witness :
    (expandPatch ⟨1, 1, 0, 0, [5], none, [], 0, 100⟩).getD 0 clearPixel =
      ⟨0, 0, 0, 255⟩ :=
  expand_bad_color_index ⟨1, 1, 0, 0, [5], none, [], 0, 100⟩ 0
    (by decide) (by decide) (by decide) (by decide)

/-- A 1 by 1 red patch (palette index 1) with disposal code 3. -/
def demoPatchRedDisposal3 : RawPatch :=
  ⟨1, 1, 0, 0, [1], some 0, [(0, 0, 255), (255, 0, 0)], 3, 100⟩

/-- A 1 by 1 fully transparent patch (its only pixel carries the
transparent index). -/
def demoPatchTransparent : RawPatch :=
  ⟨1, 1, 0, 0, [0], some 0, [(0, 0, 255), (255, 0, 0)], 0, 100⟩

/-- Patch 0 draws a red pixel and asks for restore-to-previous; patch 1
paints nothing (fully transparent). -/
def demoPatchesDisposal3 : List RawPatch :=
  [demoPatchRedDisposal3, demoPatchTransparent]

/-- C2, counterexample.  Patch 0 draws red on the blank 1 by 1 canvas and
carries disposal code 3, so under the claim the canvas is reverted to the
snapshot taken before patch 0 (the blank canvas) before patch 1 is drawn;
patch 1 is fully transparent and paints nothing, so the claim forces Frame 1
to be the blank pixel.  The compositor performs no revert for disposal 3 and
Frame 1 keeps patch 0's red pixel. -/
theorem disposal3_revert_counterexample :
    frameData demoPatchesDisposal3 1 = [⟨255, 0, 0, 255⟩] ∧
    ¬ (frameData demoPatchesDisposal3 1 = [clearPixel]) := by
  decide

/-- C2, amended.  When patch i-1 carries disposal code 3, the compositor
leaves the working canvas exactly as patch i-1's draw left it (no revert to
the pre-draw snapshot is performed); in the concrete two-patch run above,
Frame 1 therefore equals Frame 0. -/
theorem disposal3_no_restore :
    (∀ (w h : Nat) (canvas : List RGBA) (prev : Option (List RGBA)),
      disposalStep w h canvas (some 3) prev = canvas) ∧
    frameData demoPatchesDisposal3 1 = frameData demoPatchesDisposal3 0 := by
  refine ⟨fun w h canvas prev => ?_, by decide⟩
  cases prev <;> simp [disposalStep]

/-- A previously loaded one-frame store, mid-playback. -/
def demoLoadedState : GifState :=
  { frames := [⟨[⟨255, 0, 0, 255⟩], 100⟩], width := 1, height := 1,
    currentFrameIndex := 0, isPlaying := true, originalDelays := [100],
    isLoading := false, error := none }

/-- C3, counterexample.  With a one-frame store installed, a load attempt
that fails at the fetch stage leaves an empty frames list, not the store
that was present before the load began: loadGif clears frames up front. -/
theorem loadGif_previous_store_counterexample :
    ¬ ((loadGif demoLoadedState LoadInput.fetchFail).1.frames =
        demoLoadedState.frames) := by
  decide

/-- C3, amended.  A failed load installs no partial frame store, but it does
not leave the previous store untouched either: the frames list is cleared at
the start of the load (and the playback cursor and isPlaying reset with it),
so after the failure the observable store is empty, while the previous
width, height and originalDelays remain and an error is recorded. -/
theorem loadGif_failure_clears_frames (prev : GifState) (inp : LoadInput)
    (h : (loadGif prev inp).2 = false) :
    (loadGif prev inp).1.frames = [] ∧
    (loadGif prev inp).1.width = prev.width ∧
    (loadGif prev inp).1.height = prev.height ∧
    (loadGif prev inp).1.originalDelays = prev.originalDelays ∧
    (loadGif prev inp).1.currentFrameIndex = 0 ∧
    (loadGif prev inp).1.isPlaying = false ∧
    (loadGif prev inp).1.isLoading = false ∧
    (loadGif prev inp).1.error ≠ none := by
  cases inp with
  | fetchFail => simp [loadGif]
  | readFail => simp [loadGif]
  | parseFail => simp [loadGif]
  | bytes patches =>
    simp only [loadGif] at h ⊢
    cases hc : composeGif patches with
    | none => simp
    | some store => rw [hc] at h; simp at h

/-- C3, witness: the failed fetch on the concrete one-frame store. -/
theorem loadGif_failure_clears_frames_witness :
    (loadGif demoLoadedState LoadInput.fetchFail).1.frames = [] ∧
    (loadGif demoLoadedState LoadInput.fetchFail).1.width = 1 := by
  have h := loadGif_failure_clears_frames demoLoadedState LoadInput.fetchFail
    (by decide)
  exact ⟨h.1, h.2.1⟩

/-- Patch 0 fills the 2 by 1 canvas with a red pixel at x = 0 and a
transparent pixel at x = 1, keep disposal. -/
def demoPatchWide : RawPatch :=
  ⟨2, 1, 0, 0, [1, 0], some 0, [(0, 0, 0), (255, 0, 0)], 1, 100⟩

/-- Patch 1 draws one red pixel at offset x = 1 and carries disposal 2. -/
def demoPatchRightDisposal2 : RawPatch :=
  ⟨1, 1, 1, 0, [1], none, [(0, 0, 0), (255, 0, 0)], 2, 100⟩

/-- Patch 2 paints nothing (1 by 1 transparent pixel at x = 0). -/
def demoPatchNoopAtZero : RawPatch :=
  ⟨1, 1, 0, 0, [0], some 0, [(0, 0, 0), (255, 0, 0)], 0, 100⟩

def demoPatchesDisposal2 : List RawPatch :=
  [demoPatchWide, demoPatchRightDisposal2, demoPatchNoopAtZero]

/-- C4, counterexample.  Patch 1 covers only the rectangle at x = 1 and
carries disposal 2, and patch 2 paints nothing over x = 0, so under the
claim the pixel at x = 0 (outside patch 1's rectangle, red since Frame 0)
is unchanged by the disposal step and Frame 2 keeps it equal to Frame 1's
red.  The compositor clears the whole canvas for disposal 2, so Frame 2's
pixel at x = 0 is transparent and differs from Frame 1's. -/
theorem disposal2_outside_rect_counterexample :
    ¬ ((frameData demoPatchesDisposal2 2).getD 0 clearPixel =
       (frameData demoPatchesDisposal2 1).getD 0 clearPixel) := by
  decide

/-- C4, amended.  When patch i-1 carries disposal code 2, the compositor
clears the entire canvas to fully transparent before drawing patch i (a
clearRect over the full width and height), not just the rectangle patch i-1
covered: pixels outside that rectangle are cleared as well. -/
theorem disposal2_clears_full_canvas :
    (∀ (w h : Nat) (canvas : List RGBA) (prev : Option (List RGBA)),
      disposalStep w h canvas (some 2) prev =
        List.replicate (w * h) clearPixel) ∧
    (frameData demoPatchesDisposal2 2).getD 0 clearPixel = clearPixel := by
  refine ⟨fun w h canvas prev => ?_, by decide⟩
  simp [disposalStep]

/-- C6, confirmed.  For a pixel position (x, y) inside a patch whose linear
index is backed by the decoded pixel array, drawing the patch leaves the
destination pixel at the patch's placement offset unchanged when the colour
index equals the patch's transparent index (the prior content shows
through), and otherwise overwrites it with the fully opaque colour-table
entry. -/
theorem patch_transparent_pixel_semantics (w h : Nat)
    (canvas patchCanvas : List RGBA) (p : RawPatch) (x y : Nat)
    (hx : x < p.width) (hy : y < p.height)
    (hxw : p.left + x < w) (hyh : p.top + y < h)
    (hj : y * p.width + x < p.pixels.length) :
    (p.transparentIndex = some (p.pixels.getD (y * p.width + x) 0) →
      (compositeDraw w h canvas patchCanvas p).1.getD
          ((p.top + y) * w + (p.left + x)) clearPixel =
        canvas.getD ((p.top + y) * w + (p.left + x)) clearPixel) ∧
    (p.transparentIndex ≠ some (p.pixels.getD (y * p.width + x) 0) →
      (compositeDraw w h canvas patchCanvas p).1.getD
          ((p.top + y) * w + (p.left + x)) clearPixel =
        ⟨(p.colorTable.getD (p.pixels.getD (y * p.width + x) 0) (0, 0, 0)).1,
         (p.colorTable.getD (p.pixels.getD (y * p.width + x) 0) (0, 0, 0)).2.1,
         (p.colorTable.getD (p.pixels.getD (y * p.width + x) 0) (0, 0, 0)).2.2,
         255⟩) := by
  have hmain := compositeDraw_pixel w h canvas patchCanvas p x y hx hy hxw hyh
  rw [expandPatch_getD p x y hx hy, if_pos hj] at hmain
  constructor
  · intro ht
    rw [hmain, expandPixel, if_pos ht]
    rfl
  · intro ht
    rw [hmain, expandPixel, if_neg ht]
    rfl

/-- C6, witness: drawing the 2 by 1 patch whose second pixel carries the
transparent index over an opaque grey canvas leaves the destination pixel at
x = 1 untouched. -/
theorem patch_transparent_pixel_semantics_witness :
    (compositeDraw 2 1 [⟨9, 9, 9, 255⟩, ⟨8, 8, 8, 255⟩]
        [clearPixel, clearPixel]
        ⟨2, 1, 0, 0, [1, 0], some 0, [(0, 0, 0), (255, 0, 0)], 1, 100⟩).1.getD
      1 clearPixel = ⟨8, 8, 8, 255⟩ := by
  have hres := (patch_transparent_pixel_semantics 2 1
    [⟨9, 9, 9, 255⟩, ⟨8, 8, 8, 255⟩] [clearPixel, clearPixel]
    ⟨2, 1, 0, 0, [1, 0], some 0, [(0, 0, 0), (255, 0, 0)], 1, 100⟩ 1 0
    (by decide) (by decide) (by decide) (by decide) (by decide)).1 (by decide)
  exact hres

/-- The processNextFrame loop unrolled: starting at counter k it emits, in
increasing frame order, one (transformed pixels, delay) pair per remaining
frame. -/
theorem processNextFrame_range (frames : List Frame) (delays : List Nat)
    (eff : List RGBA → List RGBA) :
    ∀ (n k : Nat), frames.length - k = n →
      processNextFrame frames delays eff k =
        (List.range n).map fun i =>
          (eff (frames.getD (k + i) ⟨[], 0⟩).imageData,
            delays.getD (k + i) 0) := by
  intro n
  induction n with
  | zero =>
    intro k hk
    rw [processNextFrame, dif_neg (by omega)]
    simp
  | succ m ih =>
    intro k hk
    have hklt : k < frames.length := by omega
    have hi : ∀ i : Nat, k + 1 + i = k + (i + 1) := by omega
    rw [processNextFrame, dif_pos hklt, ih (k + 1) (by omega),
      List.range_succ_eq_map, List.map_cons, List.map_map]
    congr 1
    · rw [Nat.add_zero, List.getD_eq_getElem _ _ hklt]
      simp [List.get_eq_getElem]
    · simp [Function.comp, hi]

/-- C7, confirmed.  generateGif with the identity transform hands the
encoder exactly one pixel buffer per frame, in frame order 0..n-1, each
paired with that frame's original delay: the encoded sequence has the frame
store's length, its pixel buffers are the frames' and its delays are the
store's originalDelays. -/
theorem generateGif_export_fidelity (frames : List Frame) (delays : List Nat)
    (hne : frames ≠ []) (hlen : delays.length = frames.length) :
    ∃ out, generateGif frames delays id = Except.ok out ∧
      out.length = frames.length ∧
      out.map Prod.fst = frames.map Frame.imageData ∧
      out.map Prod.snd = delays := by
  have hrange := processNextFrame_range frames delays id frames.length 0
    (by omega)
  refine ⟨processNextFrame frames delays id 0, ?_, ?_, ?_, ?_⟩
  · rw [generateGif, if_neg (fun hh => hne (List.length_eq_zero.mp hh))]
  · rw [hrange]
    simp
  · rw [hrange]
    apply List.ext_getElem
    · simp
    · intro i h1 h2
      simp only [List.getElem_map, List.getElem_range, List.map_map,
        Function.comp, id_eq, Nat.zero_add]
      rw [List.getD_eq_getElem _ _ (by simpa using h2)]
  · rw [hrange]
    apply List.ext_getElem
    · simp [hlen]
    · intro i h1 h2
      simp only [List.getElem_map, List.getElem_range, List.map_map,
        Function.comp, Nat.zero_add]
      rw [List.getD_eq_getElem _ _ (by omega)]

/-- C7, witness: a two-frame store with delays [100, 50] exports, under the
identity transform, a two-frame sequence with the same pixel buffers and the
same delays. -/
theorem generateGif_export_fidelity_witness :
    ∃ out, generateGif [⟨[clearPixel], 100⟩, ⟨[⟨255, 0, 0, 255⟩], 50⟩]
        [100, 50] id = Except.ok out ∧
      out.length = ([⟨[clearPixel], 100⟩, ⟨[⟨255, 0, 0, 255⟩], 50⟩] :
        List Frame).length ∧
      out.map Prod.fst = ([⟨[clearPixel], 100⟩, ⟨[⟨255, 0, 0, 255⟩], 50⟩] :
        List Frame).map Frame.imageData ∧
      out.map Prod.snd = [100, 50] :=
  generateGif_export_fidelity [⟨[clearPixel], 100⟩, ⟨[⟨255, 0, 0, 255⟩], 50⟩]
    [100, 50] (by decide) (by decide)

end GlitchMixer
